import Mathlib

/-!
Shallow embedding of the VRTrainer rule-evaluation engine.

Python floats are modelled as rationals (`ℚ`), Python ints as `ℤ`; machine
rounding is not modelled, but all constants appearing in the source are
exactly representable.  Python scalar values (as stored in the OSC parameter
map and in per-trainer configuration dictionaries) are modelled by the
inductive `Value`.  Fallible operations return `Option`/`Except`.
-/

namespace VRTrainer

/-- A Python scalar value as it occurs in the avatar-parameter store and in
per-trainer config dictionaries.  `vnone` models Python `None` (an OSC message
with no arguments stores `None`); `vlist` models a list of strings (config
word lists). -/
inductive Value where
  | vnone
  | vbool (b : Bool)
  | vint (n : ℤ)
  | vfloat (q : ℚ)
  | vstr (s : String)
  | vlist (l : List String)
deriving DecidableEq, Repr

/-- `max(0.0, min(1.0, value))` as used by the float-parameter decoders. -/
def clamp01 (q : ℚ) : ℚ := max 0 (min 1 q)

/-- `max(0.0, min(2.0, val))` as used by the scaling resolvers. -/
def clamp02 (q : ℚ) : ℚ := max 0 (min 2 q)

/-- Python `str.strip()` (no arguments): remove leading and trailing
whitespace. -/
def pyStrip (s : String) : String :=
  String.mk (((s.toList.dropWhile Char.isWhitespace).reverse.dropWhile
    Char.isWhitespace).reverse)

/-- Python `str.lower()` (modelled on ASCII, like the rest of the character
handling). -/
def pyLower (s : String) : String :=
  String.mk (s.toList.map Char.toLower)

/-- Numeric value of a list of decimal digit characters. -/
def digitsVal (l : List Char) : ℕ :=
  l.foldl (fun a c => 10 * a + (c.toNat - 48)) 0

/-- Mantissa of a Python decimal float literal: digits with an optional
fraction part, at least one digit overall (`"5"`, `"5."`, `".5"`, `"0.73"`). -/
def parseMantissa (l : List Char) : Option ℚ :=
  let ip := l.takeWhile Char.isDigit
  let rest := l.drop ip.length
  match rest with
  | [] => if ip.isEmpty then none else some ((digitsVal ip : ℚ))
  | c :: frac =>
    if (c == '.') && frac.all Char.isDigit && !(ip.isEmpty && frac.isEmpty) then
      some ((digitsVal ip : ℚ) + (digitsVal frac : ℚ) / ((10 : ℚ) ^ frac.length))
    else none

/-- Strip an optional leading sign, returning the sign factor and the rest. -/
def pySign (l : List Char) : ℚ × List Char :=
  match l with
  | [] => (1, [])
  | c :: r =>
    if c == '+' then (1, r)
    else if c == '-' then (-1, r)
    else (1, c :: r)

/-- An optionally signed run of decimal digits (the exponent of a float
literal). -/
def parseSignedNat (l : List Char) : Option ℤ :=
  match l with
  | [] => none
  | c :: r =>
    if c == '+' then
      if !r.isEmpty && r.all Char.isDigit then some ((digitsVal r : ℤ)) else none
    else if c == '-' then
      if !r.isEmpty && r.all Char.isDigit then some (-(digitsVal r : ℤ)) else none
    else if (c :: r).all Char.isDigit then some ((digitsVal (c :: r) : ℤ))
    else none

/-- Models Python `float(s)` on a string: optional surrounding whitespace,
optional sign, decimal mantissa, optional decimal exponent.  `none` models a
`ValueError`.  The special spellings `inf`/`nan` and digit underscores are not
modelled (they do not occur in this development). -/
def pyParseFloat (s : String) : Option ℚ :=
  let sl := pySign ((pyStrip s).toList)
  let mant := sl.2.takeWhile (fun c => !(c == 'e' || c == 'E'))
  let rest := sl.2.drop mant.length
  match rest with
  | [] => (parseMantissa mant).map (fun m => sl.1 * m)
  | _ :: expPart =>
    match parseMantissa mant, parseSignedNat expPart with
    | some m, some e => some (sl.1 * m * (10 : ℚ) ^ e)
    | _, _ => none

/-- Models the Python builtin `float(x)` on a scalar `Value`; `none` models a
raised `TypeError`/`ValueError`.  `float(True) = 1.0`, `float(False) = 0.0`,
`float(None)` raises, `float` of a list raises. -/
def pyFloatOf : Value → Option ℚ
  | .vnone => none
  | .vbool b => some (if b then 1 else 0)
  | .vint n => some (n : ℚ)
  | .vfloat q => some q
  | .vstr s => pyParseFloat s
  | .vlist _ => none

/-- Python `int()` applied to a float truncates toward zero. -/
def pyTrunc (q : ℚ) : ℤ := if 0 ≤ q then ⌊q⌋ else ⌈q⌉

/-- Python `round()` applied to a float: nearest integer, ties to the even
neighbour. -/
def pyRound (q : ℚ) : ℤ :=
  let f := ⌊q⌋
  let r := q - (f : ℚ)
  if r < 1/2 then f
  else if 1/2 < r then f + 1
  else if f % 2 = 0 then f else f + 1

/-- One character of `Feature.normalise_text` /
`ForbiddenWordsFeature._normalise`: lowercase; alphanumerics kept, everything
else becomes a space.  (Python `str.isalnum` is modelled on ASCII.) -/
def normChar (c : Char) : Char :=
  let lc := c.toLower
  if lc.isAlphanum then lc else ' '

/-- One character of `TricksFeature._normalise_text`, which additionally keeps
underscores. -/
def normCharKeepUnderscore (c : Char) : Char :=
  let lc := c.toLower
  if lc.isAlphanum then lc else if lc == '_' then '_' else ' '

/-- Python `s.split()` (no separator): split on whitespace runs, dropping
empty pieces.  (`acc` carries the current word, reversed.) -/
def pySplitAux : List Char → List Char → List String
  | [], acc => if acc.isEmpty then [] else [String.mk acc.reverse]
  | c :: rest, acc =>
    if c.isWhitespace then
      if acc.isEmpty then pySplitAux rest []
      else String.mk acc.reverse :: pySplitAux rest []
    else pySplitAux rest (c :: acc)

/-- Python `s.split()` on a character list. -/
def pySplit (l : List Char) : List String := pySplitAux l []

/-- Python `" ".join(words)`. -/
def joinSpace : List String → String
  | [] => ""
  | [w] => w
  | w :: x :: rest => w ++ " " ++ joinSpace (x :: rest)

/-- `ForbiddenWordsFeature._normalise` / `Feature.normalise_text`: lowercase,
non-alphanumerics to spaces, whitespace runs collapsed, ends trimmed
(`" ".join(cleaned.split())`). -/
def normalise_text (s : String) : String :=
  if s = "" then ""
  else joinSpace (pySplit (s.toList.map normChar))

/-- `TricksFeature._normalise_text` (keeps underscores). -/
def normalise_text_tricks (s : String) : String :=
  if s = "" then ""
  else joinSpace (pySplit (s.toList.map normCharKeepUnderscore))

/-- Whether `needle` occurs at the start of `hay`. -/
def startMatch : List Char → List Char → Bool
  | [], _ => true
  | _ :: _, [] => false
  | a :: as, b :: bs => a == b && startMatch as bs

/-- Whether `needle` occurs contiguously anywhere in `hay`. -/
def subMatch (needle : List Char) : List Char → Bool
  | [] => needle.isEmpty
  | c :: rest => startMatch needle (c :: rest) || subMatch needle rest

/-- Python substring containment `needle in hay`. -/
def strContainsSub (hay needle : String) : Bool :=
  subMatch needle.toList hay.toList

/-! ## Avatar parameter store (`interfaces/vrchatosc.py`)

The live parameter map is modelled as a partial map from names to stored
values; an absent name yields `none`, while a present name may itself store
`Value.vnone`. -/

/-- The OSC parameter map (`VRChatOSCInterface._param_values`). -/
abbrev ParamStore := String → Option Value

/-- `VRChatOSCInterface.get_parameter(name, default)`:
`self._param_values.get(name, default)`. -/
def get_parameter (store : ParamStore) (name : String) (default : Value) : Value :=
  (store name).getD default

/-- The decode table shared by `VRChatOSCInterface.get_bool_param` and
`PullFeature._get_bool_param`, applied to the retrieved raw value:
`None → False`; `bool →` itself; numeric → `value != 0`; recognised string
spellings (case/space-insensitive) → their boolean; otherwise Python
truthiness of the raw value. -/
def decode_bool (raw : Value) : Bool :=
  match raw with
  | .vnone => false
  | .vbool b => b
  | .vint n => n != 0
  | .vfloat q => q != 0
  | .vstr s =>
    let lowered := pyLower (pyStrip s)
    if lowered ∈ (["1", "true", "yes", "on"] : List String) then true
    else if lowered ∈ (["0", "false", "no", "off"] : List String) then false
    else s != ""
  | .vlist l => !l.isEmpty

/-- The decode table shared by `VRChatOSCInterface.get_float_param` and
`PullFeature._get_float_param`: `None → 0.0`; `bool → 1.0/0.0`;
numeric → `float(value)`; string → parsed float, `0.0` on parse failure;
any other type → `0.0`; the numeric result is clamped to `[0, 1]`. -/
def decode_float (raw : Value) : ℚ :=
  match raw with
  | .vnone => 0
  | .vbool b => clamp01 (if b then 1 else 0)
  | .vint n => clamp01 (n : ℚ)
  | .vfloat q => clamp01 q
  | .vstr s =>
    match pyParseFloat s with
    | some v => clamp01 v
    | none => 0
  | .vlist _ => 0

/-- `VRChatOSCInterface.get_bool_param(name, default)`. -/
def get_bool_param (store : ParamStore) (name : String) (default : Value) : Bool :=
  decode_bool (get_parameter store name default)

/-- `VRChatOSCInterface.get_float_param(name, default)`. -/
def get_float_param (store : ParamStore) (name : String) (default : Value) : ℚ :=
  decode_float (get_parameter store name default)

/-! ## Scaling resolver (`logic/feature.py`, `logic/services.py`) -/

/-- A per-trainer configuration dictionary. -/
abbrev Config := String → Option Value

/-- `_safe(key)` inside `Feature._scaling_from_config`:
`float(config.get(key, 1.0))`, falling back to `1.0` when `float` raises,
clamped to `[0, 2]`. -/
def safe_scale (config : Config) (key : String) : ℚ :=
  clamp02 ((pyFloatOf ((config key).getD (.vfloat 1))).getD 1)

/-- The four resolved scaling multipliers. -/
structure Scaling where
  delay_scale : ℚ
  cooldown_scale : ℚ
  duration_scale : ℚ
  strength_scale : ℚ
deriving DecidableEq, Repr

/-- `Feature._scaling_from_config(config)` (the same static method is
duplicated verbatim in the pet feature classes). -/
def scaling_from_config (config : Config) : Scaling :=
  { delay_scale := safe_scale config ("delay_scale")
  , cooldown_scale := safe_scale config ("cooldown_scale")
  , duration_scale := safe_scale config ("duration_scale")
  , strength_scale := safe_scale config ("strength_scale") }

/-- `_safe_scale(key)` inside `services._extract_scaling`:
`float(settings.get(key, 1.0))`, falling back to `1.0` when `float` raises,
clamped to `[0, 2]`. -/
def safe_scale_services (settings : Config) (key : String) : ℚ :=
  clamp02 ((pyFloatOf ((settings key).getD (.vfloat 1))).getD 1)

/-- `services._extract_scaling(settings)`. -/
def extract_scaling (settings : Config) : Scaling :=
  { delay_scale := safe_scale_services settings ("delay_scale")
  , cooldown_scale := safe_scale_services settings ("cooldown_scale")
  , duration_scale := safe_scale_services settings ("duration_scale")
  , strength_scale := safe_scale_services settings ("strength_scale") }

/-! ## Shock requests -/

/-- A (strength, duration) request handed to the feedback actuator. -/
structure ShockRequest where
  strength : ℤ
  duration : ℚ
deriving DecidableEq, Repr

/-! ## Ear/tail pull feature (`logic/pet/pull.py`) -/

/-- `PullFeature._get_bool_param(name)`: fetches
`self.osc.get_parameter(name)` (default `None`) and decodes it with the same
table as `VRChatOSCInterface.get_bool_param` (the method body is a verbatim
copy). -/
def pull_get_bool_param (store : ParamStore) (name : String) : Bool :=
  decode_bool (get_parameter store name .vnone)

/-- `PullFeature._get_float_param(name)` (verbatim copy of the OSC decoder,
fetched with default `None`). -/
def pull_get_float_param (store : ParamStore) (name : String) : ℚ :=
  decode_float (get_parameter store name .vnone)

/-- `PullFeature._stretch_threshold = 0.5`. -/
def pullStretchThreshold : ℚ := 1/2

/-- `PullFeature._cooldown_seconds = 2.0`. -/
def pullCooldownSeconds : ℚ := 2

/-- `PullFeature._targets = ("LeftEar", "RightEar", "Tail")`. -/
def pullTargets : List String := ["LeftEar", "RightEar", "Tail"]

/-- Strength computed in `PullFeature._deliver_correction`:
`base_strength = 20; extra = int((stretch - threshold) * 80);
strength = max(10, min(100, base_strength + extra))`. -/
def pull_strength (stretch : ℚ) : ℤ :=
  max 10 (min 100 (20 + pyTrunc ((stretch - pullStretchThreshold) * 80)))

/-- The correction delivered by `PullFeature._deliver_correction`: the
computed strength with duration `0.5`. -/
def pullShockOf (stretch : ℚ) : ShockRequest :=
  { strength := pull_strength stretch, duration := 1/2 }

/-- `PullFeature._check_and_maybe_shock(now)`: scan `_targets` in order; on
the first whose `_IsGrabbed` flag decodes true and whose `_Stretch` reaches
the threshold, deliver one corrective shock (duration `0.5`) and stop. -/
def pull_scan : List String → ParamStore → Option ShockRequest
  | [], _ => none
  | base :: rest, store =>
    let isGrabbed := pull_get_bool_param store (base ++ "_IsGrabbed")
    let stretch := pull_get_float_param store (base ++ "_Stretch")
    if isGrabbed ∧ pullStretchThreshold ≤ stretch then
      some (pullShockOf stretch)
    else pull_scan rest store

/-- One iteration of the body of `PullFeature._worker_loop`: when
`now >= _cooldown_until`, run `_check_and_maybe_shock`; a delivered shock
advances the cooldown to `now + _cooldown_seconds`.  The loop state is
`_cooldown_until`. -/
def pull_tick (cooldownUntil : ℚ) (now : ℚ) (store : ParamStore) :
    ℚ × Option ShockRequest :=
  if cooldownUntil ≤ now then
    match pull_scan pullTargets store with
    | some req => (now + pullCooldownSeconds, some req)
    | none => (cooldownUntil, none)
  else (cooldownUntil, none)

/-- A polled tick of the pull loop: wall-clock time and the parameter
snapshot observed at that tick. -/
structure PullTick where
  now : ℚ
  store : ParamStore

/-- Run of successive pull-loop iterations; returns the final cooldown state
and the per-tick shock outputs (aligned with the tick list). -/
def pull_run (c0 : ℚ) : List PullTick → ℚ × List (Option ShockRequest)
  | [] => (c0, [])
  | t :: ts =>
    let step := pull_tick c0 t.now t.store
    let rest := pull_run step.1 ts
    (rest.1, step.2 :: rest.2)

/-! ## Forbidden words feature (`logic/pet/forbidden.py`) -/

/-- `config.get("forbidden_words", [])`; the trainer UI stores word lists as
lists of strings. -/
def forbidden_word_list (config : Config) : List String :=
  match config ("forbidden_words") with
  | some (.vlist l) => l
  | _ => []

/-- `ForbiddenWordsFeature._normalise_phrases(words)`:
`[_normalise(word) for word in words if word and _normalise(word)]`. -/
def normalise_phrases (words : List String) : List String :=
  (words.filter (fun w => w != "" && normalise_text w != "")).map normalise_text

/-- `ForbiddenWordsFeature._contains_forbidden(normalised_text, phrases)`. -/
def contains_forbidden (normalisedText : String) (phrases : List String) : Bool :=
  phrases.any (fun p => p != "" && strContainsSub normalisedText p)

/-- `ForbiddenWordsFeature._base_cooldown_seconds = 3.0`. -/
def forbiddenBaseCooldown : ℚ := 3

/-- `ForbiddenWordsFeature._base_shock_strength = 30`. -/
def forbiddenBaseStrength : ℚ := 30

/-- `ForbiddenWordsFeature._base_shock_duration = 0.5`. -/
def forbiddenBaseDuration : ℚ := 1/2

/-- `ForbiddenWordsFeature._cooldown_seconds(config)`. -/
def forbidden_cooldown_seconds (config : Config) : ℚ :=
  max 0 (forbiddenBaseCooldown * (scaling_from_config config).cooldown_scale)

/-- `ForbiddenWordsFeature._shock_params(config)`: strength
`int(max(0.0, base * strength_scale))`, duration
`max(0.0, base * duration_scale)`. -/
def forbidden_shock_params (config : Config) : ShockRequest :=
  { strength :=
      pyTrunc (max 0 (forbiddenBaseStrength * (scaling_from_config config).strength_scale))
  , duration := max 0 (forbiddenBaseDuration * (scaling_from_config config).duration_scale) }

/-- Per-trainer forbidden-words state: `cooldown_until` keyed by trainer id.
A missing `_TrainerForbiddenState` behaves exactly as `cooldown_until = 0.0`
(`setdefault` creates it so), which lets the keyed map be modelled as a total
function defaulting to `0`. -/
abbrev FStates := String → ℚ

/-- Point update of a trainer's cooldown. -/
def fstates_update (st : FStates) (tid : String) (v : ℚ) : FStates :=
  fun t => if t = tid then v else st t

/-- `ForbiddenWordsFeature._prune_inactive_states`: entries whose trainer is
not in the active set are dropped (equivalently, reset to the fresh-state
default `0`). -/
def forbidden_prune (st : FStates) (activeIds : List String) : FStates :=
  fun t => if t ∈ activeIds then st t else 0

/-- The per-trainer loop of `ForbiddenWordsFeature._worker_loop` (lines
124-142): iterate active trainers in order; skip a trainer with an empty
normalised phrase list or one still in cooldown; on the first trainer whose
phrases match the normalised text, deliver one shock, set that trainer's
cooldown to `now + _cooldown_seconds(config)` and stop (the `break` after
`shock_sent`). -/
def forbidden_scan (now : ℚ) (normalisedText : String) :
    List (String × Config) → FStates → FStates × List (String × ShockRequest)
  | [], st => (st, [])
  | (tid, config) :: rest, st =>
    let phrases := normalise_phrases (forbidden_word_list config)
    if phrases.isEmpty then forbidden_scan now normalisedText rest st
    else if now < st tid then forbidden_scan now normalisedText rest st
    else if contains_forbidden normalisedText phrases then
      (fstates_update st tid (now + forbidden_cooldown_seconds config),
        [(tid, forbidden_shock_params config)])
    else forbidden_scan now normalisedText rest st

/-- One tick of `ForbiddenWordsFeature._worker_loop`: the tick time, the new
transcript text fetched this tick, and the active trainer configs (already
filtered by the `feature_forbidden_words` flag), in dict iteration order. -/
structure FTick where
  now : ℚ
  text : String
  configs : List (String × Config)

/-- One full iteration of the forbidden-words loop body: prune, idle when no
active configs or no normalised text, otherwise evaluate trainers in order. -/
def forbidden_tick (st : FStates) (t : FTick) :
    FStates × List (String × ShockRequest) :=
  let st1 := forbidden_prune st (t.configs.map Prod.fst)
  if t.configs.isEmpty then (st1, [])
  else if normalise_text t.text = "" then (st1, [])
  else forbidden_scan t.now (normalise_text t.text) t.configs st1

/-- Run of successive forbidden-words iterations; per-tick shock outputs are
aligned with the tick list. -/
def forbidden_run (st : FStates) :
    List FTick → FStates × List (List (String × ShockRequest))
  | [] => (st, [])
  | t :: ts =>
    let step := forbidden_tick st t
    let rest := forbidden_run step.1 ts
    (rest.1, step.2 :: rest.2)

/-! ## Tricks feature (`logic/pet/tricks.py`) -/

/-- `_PendingCommand`. -/
structure PendingCommand where
  name : String
  started_at : ℚ
  deadline : ℚ
deriving DecidableEq, Repr

/-- `_TrainerTrickState` (fresh value: no pending command, cooldown `0.0`). -/
structure TrainerTrickState where
  pending : Option PendingCommand
  cooldown_until : ℚ
deriving DecidableEq, Repr

/-- `TricksFeature._base_command_timeout = 5.0`. -/
def tricksBaseTimeout : ℚ := 5

/-- `TricksFeature._base_cooldown_seconds = 2.0`. -/
def tricksBaseCooldown : ℚ := 2

/-- `TricksFeature._base_shock_strength = 35`. -/
def tricksBaseStrength : ℚ := 35

/-- `TricksFeature._base_shock_duration = 0.5`. -/
def tricksBaseDuration : ℚ := 1/2

/-- `TricksFeature._command_timeout(config)` (scaled by `delay_scale`). -/
def tricks_command_timeout (config : Config) : ℚ :=
  max 0 (tricksBaseTimeout * (scaling_from_config config).delay_scale)

/-- `TricksFeature._cooldown_seconds(config)`. -/
def tricks_cooldown_seconds (config : Config) : ℚ :=
  max 0 (tricksBaseCooldown * (scaling_from_config config).cooldown_scale)

/-- `TricksFeature._shock_params(config)`. -/
def tricks_shock_params (config : Config) : ShockRequest :=
  { strength :=
      pyTrunc (max 0 (tricksBaseStrength * (scaling_from_config config).strength_scale))
  , duration := max 0 (tricksBaseDuration * (scaling_from_config config).duration_scale) }

/-- The keys of `TricksFeature._command_phrases`: the valid trick names
(`_maybe_start_command` requires the normalised payload phrase to be one of
these). -/
def tricksCommandNames : List String :=
  ["paw", "sit", "lay_down", "beg", "play_dead", "roll_over"]

/-- `TricksFeature._is_command_completed(command)` over a parameter snapshot:
the fixed name-to-pose-boolean-expression table (all reads default `False`). -/
def tricks_is_command_completed (store : ParamStore) (command : String) : Bool :=
  if command = "paw" then
    get_bool_param store ("Trainer/Paw") (.vbool false)
  else if command = "sit" then
    get_bool_param store ("Trainer/HandNearFloor") (.vbool false)
    && get_bool_param store ("Trainer/FootNearFloor") (.vbool false)
    && get_bool_param store ("Trainer/HipsNearFloor") (.vbool false)
    && !get_bool_param store ("Trainer/HeadNearFloor") (.vbool false)
  else if command = "lay_down" then
    get_bool_param store ("Trainer/HandNearFloor") (.vbool false)
    && get_bool_param store ("Trainer/FootNearFloor") (.vbool false)
    && get_bool_param store ("Trainer/HipsNearFloor") (.vbool false)
    && get_bool_param store ("Trainer/HeadNearFloor") (.vbool false)
  else if command = "beg" then
    !get_bool_param store ("Trainer/HandNearFloor") (.vbool false)
    && get_bool_param store ("Trainer/FootNearFloor") (.vbool false)
    && get_bool_param store ("Trainer/HipsNearFloor") (.vbool false)
    && !get_bool_param store ("Trainer/HeadNearFloor") (.vbool false)
  else if command = "play_dead" then
    !get_bool_param store ("Trainer/HandNearFloor") (.vbool false)
    && !get_bool_param store ("Trainer/FootNearFloor") (.vbool false)
    && get_bool_param store ("Trainer/HipsNearFloor") (.vbool false)
    && get_bool_param store ("Trainer/HeadNearFloor") (.vbool false)
  else if command = "roll_over" then
    !get_bool_param store ("Trainer/HandNearFloor") (.vbool false)
    && !get_bool_param store ("Trainer/FootNearFloor") (.vbool false)
    && get_bool_param store ("Trainer/HipsNearFloor") (.vbool false)
    && get_bool_param store ("Trainer/HeadNearFloor") (.vbool false)
  else false

/-- Feedback emitted by a tricks tick: the start vibration
(`send_vibrate(10, 0.2)`), the success double vibration, or the failure
shock. -/
inductive TrickSignal where
  | taskStart
  | taskComplete
  | failureShock (req : ShockRequest)
deriving DecidableEq, Repr

/-- Inputs observed by one trainer's slice of a `TricksFeature._worker_loop`
tick: the tick time, that trainer's queued command events as grouped by
`_collect_trick_events` (each the optional `payload["phrase"]`), the trainer's
config, and the parameter snapshot read by `_is_command_completed`. -/
structure TrickTick where
  now : ℚ
  events : List (Option String)
  config : Config
  store : ParamStore

/-- `TricksFeature._maybe_start_command`: ignore events without a (truthy)
phrase or whose normalised phrase is not a known trick name; otherwise set the
pending command with deadline `now + _command_timeout(config)` and emit the
task-start vibration. -/
def tricks_maybe_start_command (now : ℚ) (state : TrainerTrickState)
    (event : Option String) (config : Config) :
    TrainerTrickState × List TrickSignal :=
  match event with
  | none => (state, [])
  | some name =>
    if name = "" then (state, [])
    else
      let normalised := normalise_text_tricks name
      if normalised ∈ tricksCommandNames then
        let cmd : PendingCommand :=
          { name := normalised
          , started_at := now
          , deadline := now + tricks_command_timeout config }
        ({ state with pending := some cmd }, [.taskStart])
      else (state, [])

/-- One trainer's slice of a `TricksFeature._worker_loop` tick (lines
121-137): possibly start a command from the first queued event, then either
complete the pending command (success), fail it when the deadline passed and
the trainer is off cooldown, or leave it pending. -/
def tricks_tick (state : TrainerTrickState) (t : TrickTick) :
    TrainerTrickState × List TrickSignal :=
  let startStep :=
    if state.pending.isNone ∧ !t.events.isEmpty then
      tricks_maybe_start_command t.now state (t.events.headD none) t.config
    else (state, [])
  match startStep.1.pending with
  | none => startStep
  | some p =>
    if tricks_is_command_completed t.store p.name then
      ({ startStep.1 with pending := none }, startStep.2 ++ [.taskComplete])
    else if p.deadline ≤ t.now ∧ startStep.1.cooldown_until ≤ t.now then
      ({ pending := none,
         cooldown_until := t.now + tricks_cooldown_seconds t.config },
        startStep.2 ++ [.failureShock (tricks_shock_params t.config)])
    else startStep

/-- Run of successive tricks iterations for one trainer; per-tick outputs are
aligned with the tick list. -/
def tricks_run (state : TrainerTrickState) :
    List TrickTick → TrainerTrickState × List (List TrickSignal)
  | [] => (state, [])
  | t :: ts =>
    let step := tricks_tick state t
    let rest := tricks_run step.1 ts
    (rest.1, step.2 :: rest.2)

/-! ## Transcript store (`interfaces/whisper.py`) -/

/-- `_TranscriptChunk`. -/
structure TranscriptChunk where
  text : String
  timestamp : ℚ
deriving DecidableEq, Repr

/-- The transcript plus the per-tag cursor positions
(`WhisperInterface._transcript` / `_tag_positions`). -/
structure WhisperState where
  transcript : List TranscriptChunk
  tagPositions : String → Option ℕ

/-- A raised Python exception. -/
inductive PyError where
  | valueError (msg : String)
  | runtimeError (msg : String)
deriving DecidableEq, Repr

/-- `WhisperInterface.get_new_text(tag)`: raises `ValueError` on an empty
tag; initialises an unseen tag's cursor to the current transcript length;
returns `""` when nothing is new, otherwise the space-joined (and stripped)
text of the chunks from the cursor to the end, advancing the cursor. -/
def get_new_text (st : WhisperState) (tag : String) :
    Except PyError (String × WhisperState) :=
  if tag = "" then .error (.valueError ("tag must be a non-empty string"))
  else
    let startIndex := (st.tagPositions tag).getD st.transcript.length
    let endIndex := st.transcript.length
    if endIndex ≤ startIndex then
      .ok ("", { st with tagPositions := fun t =>
        if t = tag then some startIndex else st.tagPositions t })
    else
      .ok (pyStrip (joinSpace ((st.transcript.drop startIndex).map
            TranscriptChunk.text)),
        { st with tagPositions := fun t =>
            if t = tag then some endIndex else st.tagPositions t })

/-- `WhisperInterface.reset_tag(tag)`: raises `ValueError` on an empty tag;
otherwise forces the tag's cursor to the current transcript end. -/
def reset_tag (st : WhisperState) (tag : String) : Except PyError WhisperState :=
  if tag = "" then .error (.valueError ("tag must be a non-empty string"))
  else .ok { st with tagPositions := fun t =>
    if t = tag then some st.transcript.length else st.tagPositions t }

/-- The producer appending a recognised chunk
(`self._transcript.append(_TranscriptChunk(text=text))`). -/
def append_chunk (st : WhisperState) (c : TranscriptChunk) : WhisperState :=
  { st with transcript := st.transcript ++ [c] }

/-! ## PiShock actuator (`interfaces/pishock.py`) -/

/-- Connection state of `PiShockInterface`: `enabled` is `role == "pet"`,
`connected` / `shockerPresent` reflect `start()`. -/
structure PiShockState where
  enabled : Bool
  connected : Bool
  shockerPresent : Bool
deriving DecidableEq, Repr

/-- The visual OSC pulse emitted by `_send_shock_osc`: a normalised strength
value in `[0, 1]` held for a non-negative duration. -/
structure OscPulse where
  value : ℚ
  duration : ℚ
deriving DecidableEq, Repr

/-- The hardware call
`shocker.shock(duration=safe_duration, intensity=safe_strength)`. -/
structure HwShock where
  intensity : ℤ
  duration : ℚ
deriving DecidableEq, Repr

/-- The outgoing calls made by one `send_shock` invocation. -/
structure SendShockResult where
  osc : Option OscPulse
  hw : Option HwShock
deriving DecidableEq, Repr

/-- `PiShockInterface.send_shock(strength, duration)` for numeric arguments:
disabled (trainer role) does nothing; otherwise
`safe_strength = max(0, min(100, int(round(float(strength)))))` and
`safe_duration = max(0.0, float(duration))` are computed before any outgoing
call, the visual OSC pulse is always emitted, and the hardware shock happens
only when connected with a shocker.  The hardware call is inside
`try/except`, so the function always returns normally. -/
def send_shock (st : PiShockState) (strength duration : ℚ) : SendShockResult :=
  if !st.enabled then { osc := none, hw := none }
  else
    let safeStrength : ℤ := max 0 (min 100 (pyRound strength))
    let safeDuration : ℚ := max 0 duration
    let pulse : OscPulse :=
      { value := clamp01 ((safeStrength : ℚ) / 100), duration := safeDuration }
    if !st.connected then { osc := some pulse, hw := none }
    else if !st.shockerPresent then { osc := some pulse, hw := none }
    else
      { osc := some pulse
      , hw := some { intensity := safeStrength, duration := safeDuration } }

/-! ## Exception propagation in the pull worker loop (`logic/pet/pull.py`)

The collaborators are modelled as oracles that may raise: `Except` tracks
whether an exception escapes the loop body (terminating the worker thread). -/

/-- An `osc.get_parameter` oracle that may raise. -/
abbrev OscOracle := String → Except PyError (Option Value)

/-- A `pishock.send_shock` oracle that may raise. -/
abbrev ShockOracle := ShockRequest → Except PyError Unit

/-- `PullFeature._get_bool_param` with an effectful Parameter Store: the
`get_parameter` call is NOT guarded, so its error propagates. -/
def pull_get_bool_paramE (osc : OscOracle) (name : String) :
    Except PyError Bool :=
  (osc name).map (fun raw => decode_bool (raw.getD .vnone))

/-- `PullFeature._get_float_param` with an effectful Parameter Store
(unguarded). -/
def pull_get_float_paramE (osc : OscOracle) (name : String) :
    Except PyError ℚ :=
  (osc name).map (fun raw => decode_float (raw.getD .vnone))

/-- `PullFeature._deliver_correction`: the whole body, including the actuator
call, sits inside `try/except Exception: return`, so an actuator error is
swallowed and the tick continues. -/
def pull_deliver_correctionE (pishock : ShockOracle) (stretch : ℚ) : Unit :=
  match pishock { strength := pull_strength stretch, duration := 1/2 } with
  | .ok _ => ()
  | .error _ => ()

/-- `PullFeature._check_and_maybe_shock` with effectful collaborators. -/
def pull_check_and_maybe_shockE (osc : OscOracle) (pishock : ShockOracle) :
    List String → Except PyError Bool
  | [] => .ok false
  | base :: rest => do
    let isGrabbed ← pull_get_bool_paramE osc (base ++ "_IsGrabbed")
    let stretch ← pull_get_float_paramE osc (base ++ "_Stretch")
    if isGrabbed ∧ pullStretchThreshold ≤ stretch then
      let _ := pull_deliver_correctionE pishock stretch
      return true
    else pull_check_and_maybe_shockE osc pishock rest

/-- One iteration of `PullFeature._worker_loop` with effectful collaborators:
an uncaught error inside the tick body propagates out of `_worker_loop` and
terminates the worker thread; `.error` marks exactly that. -/
def pull_tickE (cooldownUntil : ℚ) (now : ℚ) (osc : OscOracle)
    (pishock : ShockOracle) : Except PyError ℚ :=
  if cooldownUntil ≤ now then
    (pull_check_and_maybe_shockE osc pishock pullTargets).map
      (fun fired => if fired then now + pullCooldownSeconds else cooldownUntil)
  else .ok cooldownUntil

/-! ## Concrete demo inputs used by the scenario theorems -/

/-- A small concrete configuration exercising the scaling resolver: an
out-of-range numeric value and an unparseable string value. -/
def demoScaleConfig : Config := fun k =>
  if k = "strength_scale" then some (.vfloat 5)
  else if k = "cooldown_scale" then some (.vstr ("fast"))
  else none

/-- A store exercising the decoding tables at concrete inputs taken from the
spec: `"YES"`, `"off"`, `"0.73"` and the out-of-range `1.5`. -/
def demoParamStore : ParamStore := fun name =>
  if name = "pYes" then some (.vstr ("YES"))
  else if name = "pOff" then some (.vstr ("off"))
  else if name = "pNum" then some (.vstr ("0.73"))
  else if name = "pBig" then some (.vfloat (3/2))
  else none

/-- A parameter snapshot for the C3 scenario: `LeftEar_IsGrabbed = True`,
`LeftEar_Stretch = 0.8`. -/
def pullDemoStore : ParamStore := fun name =>
  if name = "LeftEar_IsGrabbed" then some (.vbool true)
  else if name = "LeftEar_Stretch" then some (.vfloat (4/5))
  else none

/-- A Parameter Store oracle that raises on every read. -/
def errParamOracle : OscOracle := fun _ => .error (.runtimeError ("osc failure"))

/-- An actuator oracle that always succeeds. -/
def okShockOracle : ShockOracle := fun _ => .ok ()

/-! ## Forbidden-words demo inputs -/

/-- Trainer A's config for the C7 scenario: forbidden list `["bad word"]`. -/
def forbiddenDemoConfig : Config := fun k =>
  if k = "forbidden_words" then some (.vlist (["bad word"])) else none

/-- Trainer B's config for the C7 scenario: empty forbidden list. -/
def forbiddenEmptyConfig : Config := fun k =>
  if k = "forbidden_words" then some (.vlist ([])) else none

/-- The C7 scenario tick: both trainers active, A (first) lists "bad word",
B lists nothing; the transcript contains "bad word". -/
def demoTickA : FTick :=
  { now := 5, text := "this is a bad word"
  , configs := [("A", forbiddenDemoConfig), ("B", forbiddenEmptyConfig)] }

/-- A tick where both A and B list "bad word". -/
def demoTickAB : FTick :=
  { now := 5, text := "this is a bad word"
  , configs := [("A", forbiddenDemoConfig), ("B", forbiddenDemoConfig)] }

/-- A per-trainer state where A is still cooling down at time 5. -/
def stACool : FStates := fun t => if t = "A" then 10 else 0

/-- The same scenario polled again at time 7 (inside A's cooldown window
`[5, 8)`), with the forbidden text still present. -/
def demoTickA7 : FTick :=
  { now := 7, text := "this is a bad word"
  , configs := [("A", forbiddenDemoConfig), ("B", forbiddenEmptyConfig)] }

/-- Demo tick before the deadline (time 1): no events, empty parameter
store, default config. -/
def demoTrickTick1 : TrickTick :=
  { now := 1, events := [], config := fun _ => none, store := fun _ => none }

/-- Demo tick after the deadline (time 6). -/
def demoTrickTickF : TrickTick :=
  { now := 6, events := [], config := fun _ => none, store := fun _ => none }

/-! ## General lemmas -/

theorem clamp01_nonneg (q : ℚ) : 0 ≤ clamp01 q := le_max_left 0 _

theorem clamp01_le_one (q : ℚ) : clamp01 q ≤ 1 :=
  max_le (by norm_num) (min_le_left 1 q)

theorem clamp02_nonneg (q : ℚ) : 0 ≤ clamp02 q := le_max_left 0 _

theorem clamp02_le_two (q : ℚ) : clamp02 q ≤ 2 :=
  max_le (by norm_num) (min_le_left 2 q)

theorem decode_float_nonneg (raw : Value) : 0 ≤ decode_float raw := by
  cases raw with
  | vstr s =>
    simp only [decode_float]
    cases pyParseFloat s with
    | none => simp
    | some v => simpa using clamp01_nonneg v
  | vbool b => exact clamp01_nonneg _
  | vint n => exact clamp01_nonneg _
  | vfloat q => exact clamp01_nonneg q
  | vnone => simp [decode_float]
  | vlist l => simp [decode_float]

theorem decode_float_le_one (raw : Value) : decode_float raw ≤ 1 := by
  cases raw with
  | vstr s =>
    simp only [decode_float]
    cases pyParseFloat s with
    | none => simp
    | some v => simpa using clamp01_le_one v
  | vbool b => exact clamp01_le_one _
  | vint n => exact clamp01_le_one _
  | vfloat q => exact clamp01_le_one q
  | vnone => simp [decode_float]
  | vlist l => simp [decode_float]

/-! ## C2 — scaling clamp -/

/-- C2: for every configuration mapping and every key, the resolved scaling
value is a rational in `[0, 2]`; a numeric value (float or int) is clamped to
that range; a missing key and a value on which `float()` raises (non-numeric)
yield exactly `1.0`; `scaling_from_config` resolves exactly the four scale
keys this way, and `services._extract_scaling` computes the same resolution.
Resolution is a total function (it never raises). -/
theorem scaling_clamp_C2 (config : Config) :
    (∀ key, 0 ≤ safe_scale config key ∧ safe_scale config key ≤ 2) ∧
    (∀ key, config key = none → safe_scale config key = 1) ∧
    (∀ key q, config key = some (.vfloat q) →
      safe_scale config key = max 0 (min 2 q)) ∧
    (∀ key n, config key = some (.vint n) →
      safe_scale config key = max 0 (min 2 (n : ℚ))) ∧
    (∀ key v, config key = some v → pyFloatOf v = none →
      safe_scale config key = 1) ∧
    scaling_from_config config =
      { delay_scale := safe_scale config ("delay_scale")
      , cooldown_scale := safe_scale config ("cooldown_scale")
      , duration_scale := safe_scale config ("duration_scale")
      , strength_scale := safe_scale config ("strength_scale") } ∧
    extract_scaling config = scaling_from_config config := by
  refine ⟨fun key => ⟨clamp02_nonneg _, clamp02_le_two _⟩, ?_, ?_, ?_, ?_, rfl, rfl⟩
  · intro key h
    simp [safe_scale, h, pyFloatOf, clamp02]
  · intro key q h
    simp [safe_scale, h, pyFloatOf, clamp02]
  · intro key n h
    simp [safe_scale, h, pyFloatOf, clamp02]
  · intro key v h hv
    simp [safe_scale, h, hv, clamp02]

theorem scaling_clamp_C2_witness :
    safe_scale demoScaleConfig ("strength_scale") = 2 ∧
    safe_scale demoScaleConfig ("cooldown_scale") = 1 ∧
    safe_scale demoScaleConfig ("delay_scale") = 1 := by
  obtain ⟨-, hmiss, hfloat, -, hbad, -, -⟩ := scaling_clamp_C2 demoScaleConfig
  refine ⟨?_, ?_, ?_⟩
  · rw [hfloat ("strength_scale") 5 (by decide)]
    norm_num
  · exact hbad ("cooldown_scale") (.vstr ("fast")) (by decide) (by decide)
  · exact hmiss ("delay_scale") (by decide)

/-! ## C4 — parameter decoding -/

/-- C4 counterexample: the claim says `get_float_param` decodes a missing
value to `0.0` regardless of the caller-supplied default, but the code passes
the default into `get_parameter`, so a missing parameter with a numeric
default decodes to that default: with an empty store,
`get_float_param("x", 0.73)` returns `0.73`, not `0.0`. -/
theorem param_decoding_C4_counterexample :
    get_float_param (fun _ => none) ("x") (.vfloat (73/100)) = 73/100 ∧
    (73/100 : ℚ) ≠ 0 := by
  constructor
  · simp [get_float_param, get_parameter, decode_float, clamp01]
    norm_num
  · norm_num

/-- C4 (amended): `get_bool_param` and `get_float_param` decode the retrieved
raw value `self._param_values.get(name, default)` — the stored value, or the
caller-supplied default when the name is absent — by these tables.
Bool side: raw `None → False` (hence a missing name with a bool default
returns that default); bool → itself; numeric → `value != 0`; a string whose
stripped, lowercased form is in the true/false spelling sets → that boolean,
otherwise the truthiness of the raw string.  Float side: raw `None → 0.0`;
bool → `1.0/0.0`; numeric → `float(value)` clamped; string → parsed float
clamped, or `0.0` on parse failure; a missing name with a numeric default
decodes that default (clamped) rather than yielding `0.0`; the result is
always within `[0.0, 1.0]`. -/
theorem param_decoding_C4 (store : ParamStore) (name : String) (default : Value) :
    (store name = none → ∀ b, default = .vbool b →
      get_bool_param store name default = b) ∧
    (∀ b, store name = some (.vbool b) → get_bool_param store name default = b) ∧
    (∀ n : ℤ, store name = some (.vint n) →
      (get_bool_param store name default = true ↔ n ≠ 0)) ∧
    (∀ q : ℚ, store name = some (.vfloat q) →
      (get_bool_param store name default = true ↔ q ≠ 0)) ∧
    (∀ s, store name = some (.vstr s) →
      pyLower (pyStrip s) ∈ (["1", "true", "yes", "on"] : List String) →
      get_bool_param store name default = true) ∧
    (∀ s, store name = some (.vstr s) →
      pyLower (pyStrip s) ∈ (["0", "false", "no", "off"] : List String) →
      get_bool_param store name default = false) ∧
    (∀ s, store name = some (.vstr s) →
      pyLower (pyStrip s) ∉ (["1", "true", "yes", "on"] : List String) →
      pyLower (pyStrip s) ∉ (["0", "false", "no", "off"] : List String) →
      (get_bool_param store name default = true ↔ s ≠ "")) ∧
    (store name = some .vnone → get_float_param store name default = 0) ∧
    (store name = none → default = .vnone → get_float_param store name default = 0) ∧
    (store name = none → ∀ q, default = .vfloat q →
      get_float_param store name default = clamp01 q) ∧
    (∀ b, store name = some (.vbool b) →
      get_float_param store name default = if b then 1 else 0) ∧
    (∀ n : ℤ, store name = some (.vint n) →
      get_float_param store name default = clamp01 (n : ℚ)) ∧
    (∀ q : ℚ, store name = some (.vfloat q) →
      get_float_param store name default = clamp01 q) ∧
    (∀ s v, store name = some (.vstr s) → pyParseFloat s = some v →
      get_float_param store name default = clamp01 v) ∧
    (∀ s, store name = some (.vstr s) → pyParseFloat s = none →
      get_float_param store name default = 0) ∧
    (0 ≤ get_float_param store name default ∧
      get_float_param store name default ≤ 1) := by
  refine ⟨?_, ?_, ?_, ?_, ?_, ?_, ?_, ?_, ?_, ?_, ?_, ?_, ?_, ?_, ?_,
    decode_float_nonneg _, decode_float_le_one _⟩
  · intro h b hb
    simp [get_bool_param, get_parameter, h, hb, decode_bool]
  · intro b h
    simp [get_bool_param, get_parameter, h, decode_bool]
  · intro n h
    simp [get_bool_param, get_parameter, h, decode_bool]
  · intro q h
    simp [get_bool_param, get_parameter, h, decode_bool]
  · intro s h hs
    simp only [get_bool_param, get_parameter, h, Option.getD_some, decode_bool]
    rw [if_pos hs]
  · intro s h hs
    have hs' := hs
    simp only [List.mem_cons, List.not_mem_nil, or_false] at hs'
    have hnt : pyLower (pyStrip s) ∉ (["1", "true", "yes", "on"] : List String) := by
      rcases hs' with h1 | h1 | h1 | h1 <;> rw [h1] <;> decide
    simp only [get_bool_param, get_parameter, h, Option.getD_some, decode_bool]
    rw [if_neg hnt, if_pos hs]
  · intro s h hs1 hs2
    simp only [get_bool_param, get_parameter, h, Option.getD_some, decode_bool]
    rw [if_neg hs1, if_neg hs2]
    simp
  · intro h
    simp [get_float_param, get_parameter, h, decode_float]
  · intro h hd
    simp [get_float_param, get_parameter, h, hd, decode_float]
  · intro h q hd
    simp [get_float_param, get_parameter, h, hd, decode_float]
  · intro b h
    cases b <;> simp [get_float_param, get_parameter, h, decode_float, clamp01]
  · intro n h
    simp [get_float_param, get_parameter, h, decode_float]
  · intro q h
    simp [get_float_param, get_parameter, h, decode_float]
  · intro s v h hv
    simp [get_float_param, get_parameter, h, decode_float, hv]
  · intro s h hv
    simp [get_float_param, get_parameter, h, decode_float, hv]

/-- Concrete evaluation of the float-string parser on the spec's example. -/
theorem pyParseFloat_073 : pyParseFloat ("0.73") = some (73/100) := by
  have h1 : pySign ((pyStrip ("0.73")).toList) = (1, ['0', '.', '7', '3']) := by decide
  have h2 : (['0', '.', '7', '3'].takeWhile fun c => !(c == 'e' || c == 'E'))
      = ['0', '.', '7', '3'] := by decide
  have h3 : List.takeWhile Char.isDigit ['0', '.', '7', '3'] = ['0'] := by decide
  have h4 : digitsVal ['0'] = 0 := by decide
  have h5 : digitsVal ['7', '3'] = 73 := by decide
  have h6 : ('7' : Char).isDigit = true := by decide
  have h7 : ('3' : Char).isDigit = true := by decide
  simp only [pyParseFloat, h1, h2, parseMantissa, h3]
  norm_num [h4, h5, h6, h7]

theorem param_decoding_C4_witness :
    get_bool_param demoParamStore ("pYes") .vnone = true ∧
    get_bool_param demoParamStore ("pOff") .vnone = false ∧
    get_float_param demoParamStore ("pNum") .vnone = 73/100 ∧
    get_float_param demoParamStore ("pBig") .vnone = 1 := by
  refine ⟨?_, ?_, ?_, ?_⟩
  · exact (param_decoding_C4 demoParamStore ("pYes") .vnone).2.2.2.2.1
      ("YES") rfl (by decide)
  · exact (param_decoding_C4 demoParamStore ("pOff") .vnone).2.2.2.2.2.1
      ("off") rfl (by decide)
  · have h := (param_decoding_C4 demoParamStore ("pNum") .vnone).2.2.2.2.2.2.2.2.2.2.2.2.2.1
      ("0.73") (73/100) rfl pyParseFloat_073
    rw [h]
    norm_num [clamp01]
  · have h := (param_decoding_C4 demoParamStore ("pBig") .vnone).2.2.2.2.2.2.2.2.2.2.2.2.1
      (3/2) rfl
    rw [h]
    norm_num [clamp01]

/-! ## C9 — empty-tag contract -/

/-- For every non-empty tag, `get_new_text` returns normally. -/
theorem get_new_text_ok (st : WhisperState) (tag : String) (h : tag ≠ "") :
    ∃ r, get_new_text st tag = .ok r := by
  simp only [get_new_text, if_neg h]
  by_cases hc : st.transcript.length ≤ (st.tagPositions tag).getD st.transcript.length
  · exact ⟨_, by rw [if_pos hc]⟩
  · exact ⟨_, by rw [if_neg hc]⟩

/-- C9: `get_new_text(tag)` and `reset_tag(tag)` raise (`ValueError`) exactly
when `tag` is the empty string; for every non-empty tag both return normally
on every transcript state. -/
theorem empty_tag_contract_C9 (st : WhisperState) (tag : String) :
    ((∃ e, get_new_text st tag = .error e) ↔ tag = "") ∧
    ((∃ e, reset_tag st tag = .error e) ↔ tag = "") := by
  constructor
  · constructor
    · intro he
      by_contra hne
      obtain ⟨r, hr⟩ := get_new_text_ok st tag hne
      obtain ⟨e, he⟩ := he
      rw [hr] at he
      exact Except.noConfusion he
    · rintro rfl
      exact ⟨.valueError ("tag must be a non-empty string"), by simp [get_new_text]⟩
  · constructor
    · intro he
      by_contra hne
      obtain ⟨e, he⟩ := he
      simp [reset_tag, hne] at he
    · rintro rfl
      exact ⟨.valueError ("tag must be a non-empty string"), by simp [reset_tag]⟩

/-! ## C10 — actuator input clamping -/

/-- C10: `send_shock` never raises for numeric inputs (it is a total
function); when the interface is disabled (trainer role) it makes no outgoing
call at all, when not connected (or without a shocker) it makes no hardware
call; any hardware call it does make uses
`max(0, min(100, int(round(strength))))` and `max(0.0, duration)` — an
integer strength in `[0, 100]` and a non-negative duration. -/
theorem actuator_clamp_C10 (st : PiShockState) (strength duration : ℚ) :
    (st.enabled = false →
      send_shock st strength duration = { osc := none, hw := none }) ∧
    (st.connected = false → (send_shock st strength duration).hw = none) ∧
    (∀ hw, (send_shock st strength duration).hw = some hw →
      0 ≤ hw.intensity ∧ hw.intensity ≤ 100 ∧ 0 ≤ hw.duration ∧
      hw.intensity = max 0 (min 100 (pyRound strength)) ∧
      hw.duration = max 0 duration) := by
  refine ⟨?_, ?_, ?_⟩
  · intro h
    simp [send_shock, h]
  · intro h
    by_cases he : st.enabled <;> simp [send_shock, h, he]
  · intro hw hhw
    by_cases he : st.enabled
    · by_cases hc : st.connected
      · by_cases hs : st.shockerPresent
        · have hcalc : (send_shock st strength duration).hw
              = some { intensity := max 0 (min 100 (pyRound strength)),
                       duration := max 0 duration } := by
            simp [send_shock, he, hc, hs]
          rw [hcalc] at hhw
          obtain rfl := (Option.some.inj hhw).symm
          refine ⟨le_max_left _ _, ?_, le_max_left _ _, rfl, rfl⟩
          exact max_le (by norm_num) (min_le_left _ _)
        · simp [send_shock, he, hc, hs] at hhw
      · simp [send_shock, he, hc] at hhw
    · simp [send_shock, he] at hhw

theorem actuator_clamp_C10_witness :
    (send_shock { enabled := true, connected := true, shockerPresent := true }
        (301/2) (-1)).hw
      = some { intensity := 100, duration := 0 } ∧
    send_shock { enabled := false, connected := true, shockerPresent := true }
        (301/2) (-1)
      = { osc := none, hw := none } := by
  have h1 := (actuator_clamp_C10
    { enabled := true, connected := true, shockerPresent := true } (301/2) (-1)).2.2
  have h2 := (actuator_clamp_C10
    { enabled := false, connected := true, shockerPresent := true } (301/2) (-1)).1 rfl
  refine ⟨?_, h2⟩
  have hhw : (send_shock { enabled := true, connected := true, shockerPresent := true }
      (301/2) (-1)).hw
      = some { intensity := max 0 (min 100 (pyRound (301/2))), duration := max 0 (-1) } := by
    simp [send_shock]
  have hb := h1 _ hhw
  rw [hhw]
  have hfl : (⌊(301 : ℚ)/2⌋ : ℤ) = 150 := by
    norm_num [Int.floor_eq_iff]
  have hr : pyRound ((301 : ℚ)/2) = 150 := by
    rw [pyRound, hfl]
    norm_num
  rw [hr]
  norm_num

/-! ## C5 — transcript "future only" -/

/-- C5: a non-empty tag first read after chunks `[c1, c2]` are already in the
transcript returns `""` without error (the cursor initialises to the current
end); after appending `c3`, the next read returns exactly `c3`'s text
(chunks are stored stripped, which the hypothesis records) and advances the
cursor to the new end (`3`); a further read with no intervening appends
returns `""` again. -/
theorem transcript_future_only_C5 (c1 c2 c3 : TranscriptChunk) (tag : String)
    (pos : String → Option ℕ) (htag : tag ≠ "") (hfresh : pos tag = none)
    (hstrip : pyStrip c3.text = c3.text) :
    ∃ st1 st2 st3,
      get_new_text { transcript := [c1, c2], tagPositions := pos } tag
        = .ok ("", st1) ∧
      get_new_text (append_chunk st1 c3) tag = .ok (c3.text, st2) ∧
      st2.tagPositions tag = some 3 ∧
      get_new_text st2 tag = .ok ("", st3) := by
  refine ⟨{ transcript := [c1, c2]
          , tagPositions := fun t => if t = tag then some 2 else pos t },
    { transcript := [c1, c2, c3]
    , tagPositions := fun t =>
        if t = tag then some 3 else if t = tag then some 2 else pos t },
    { transcript := [c1, c2, c3]
    , tagPositions := fun t =>
        if t = tag then some 3
        else if t = tag then some 3 else if t = tag then some 2 else pos t },
    ?_, ?_, ?_, ?_⟩
  · simp [get_new_text, htag, hfresh]
  · simp only [append_chunk, get_new_text, if_neg htag, if_pos rfl, Option.getD_some,
      List.cons_append, List.nil_append, List.length_cons, List.length_nil]
    rw [if_neg (by norm_num)]
    simp only [List.drop, joinSpace, List.map_cons, List.map_nil, hstrip]
  · simp
  · simp only [get_new_text, if_neg htag, if_pos rfl, Option.getD_some, List.length_cons,
      List.length_nil]
    rw [if_pos (by norm_num)]
    simp

/-- Concrete run of the C5 scenario. -/
theorem transcript_future_only_C5_witness :
    ∃ st1 st2 st3,
      get_new_text
          { transcript := [{ text := "hello", timestamp := 0 },
              { text := "there", timestamp := 1 }]
          , tagPositions := fun _ => none } ("t")
        = .ok ("", st1) ∧
      get_new_text (append_chunk st1 { text := "bad dog", timestamp := 2 }) ("t")
        = .ok ("bad dog", st2) ∧
      st2.tagPositions ("t") = some 3 ∧
      get_new_text st2 ("t") = .ok ("", st3) :=
  transcript_future_only_C5 { text := "hello", timestamp := 0 }
    { text := "there", timestamp := 1 } { text := "bad dog", timestamp := 2 }
    ("t") (fun _ => none) (by decide) rfl (by decide)

/-! ## Pull-loop lemmas -/

theorem pull_strength_45 : pull_strength (4/5) = 44 := by
  rw [pull_strength]
  rw [show ((4 : ℚ)/5 - pullStretchThreshold) * 80 = 24 from by
    norm_num [pullStretchThreshold]]
  rw [show pyTrunc (24 : ℚ) = 24 from by norm_num [pyTrunc]]
  norm_num

theorem pull_demo_scan :
    pull_scan pullTargets pullDemoStore
      = some { strength := 44, duration := 1/2 } := by
  have hstretch : pull_get_float_param pullDemoStore ("LeftEar" ++ "_Stretch") = 4/5 := by
    show clamp01 (4/5) = 4/5
    norm_num [clamp01]
  have hcond : pull_get_bool_param pullDemoStore ("LeftEar" ++ "_IsGrabbed")
      ∧ pullStretchThreshold ≤ pull_get_float_param pullDemoStore ("LeftEar" ++ "_Stretch") := by
    refine ⟨rfl, ?_⟩
    rw [hstretch]
    norm_num [pullStretchThreshold]
  show (if pull_get_bool_param pullDemoStore ("LeftEar" ++ "_IsGrabbed")
        ∧ pullStretchThreshold ≤ pull_get_float_param pullDemoStore ("LeftEar" ++ "_Stretch")
      then some (pullShockOf (pull_get_float_param pullDemoStore ("LeftEar" ++ "_Stretch")))
      else pull_scan ["RightEar", "Tail"] pullDemoStore)
    = some { strength := 44, duration := 1/2 }
  rw [if_pos hcond, hstretch, pullShockOf, pull_strength_45]

/-- The cooldown state never decreases across a pull tick. -/
theorem pull_tick_mono (c now : ℚ) (store : ParamStore) :
    c ≤ (pull_tick c now store).1 := by
  by_cases h : c ≤ now
  · obtain hs | ⟨r, hs⟩ := (pull_scan pullTargets store).eq_none_or_eq_some
    · rw [pull_tick, if_pos h, hs]
    · rw [pull_tick, if_pos h, hs]
      exact le_trans h (le_add_of_nonneg_right (by norm_num [pullCooldownSeconds]))
  · rw [pull_tick, if_neg h]

/-- Lower bounds on the cooldown state are preserved by a pull run. -/
theorem pull_run_lb (B c : ℚ) (ts : List PullTick) (h : B ≤ c) :
    B ≤ (pull_run c ts).1 := by
  induction ts generalizing c with
  | nil => exact h
  | cons t ts ih =>
    exact ih _ (le_trans h (pull_tick_mono c t.now t.store))

/-- A firing pull tick advances the cooldown to `now + _cooldown_seconds` and
implies the tick was off cooldown. -/
theorem pull_tick_fire (c now : ℚ) (store : ParamStore) (req : ShockRequest)
    (h : (pull_tick c now store).2 = some req) :
    (pull_tick c now store).1 = now + pullCooldownSeconds ∧ c ≤ now := by
  by_cases hc : c ≤ now
  · obtain hs | ⟨r, hs⟩ := (pull_scan pullTargets store).eq_none_or_eq_some
    · rw [pull_tick, if_pos hc, hs] at h
      exact Option.noConfusion h
    · rw [pull_tick, if_pos hc, hs]
      exact ⟨rfl, hc⟩
  · rw [pull_tick, if_neg hc] at h
    exact Option.noConfusion h

/-- A pull tick still inside the cooldown window cannot fire. -/
theorem pull_tick_nofire (c now : ℚ) (store : ParamStore) (h : now < c) :
    (pull_tick c now store).2 = none := by
  rw [pull_tick, if_neg (not_le.mpr h)]

/-- Splitting a pull run across an append. -/
theorem pull_run_state_append (c : ℚ) (l1 l2 : List PullTick) :
    (pull_run c (l1 ++ l2)).1 = (pull_run (pull_run c l1).1 l2).1 := by
  induction l1 generalizing c with
  | nil => rfl
  | cons t ts ih => exact ih _

/-! ## C3 — pull scenario -/

/-- C3 counterexample: with `LeftEar_IsGrabbed=True` and `LeftEar_Stretch=0.8`
the code computes strength `max(10, min(100, 20 + int((0.8-0.5)*80))) = 44`,
not the claimed `20 + (0.8-0.5)/(1-0.5)*(40-20) = 32`, and `44` lies outside
the claimed clamp range `[20, 40]` (that formula and range belong to the
depth feature, not the pull feature). -/
theorem pull_scenario_C3_counterexample :
    pull_scan pullTargets pullDemoStore
      = some { strength := 44, duration := 1/2 } ∧
    (20 + ((4/5 - 1/2) / (1 - 1/2)) * (40 - 20) : ℚ) = 32 ∧
    (44 : ℤ) ≠ 32 ∧ ¬ ((44 : ℤ) ≤ 40) := by
  refine ⟨pull_demo_scan, by norm_num, by norm_num, by norm_num⟩

/-- C3 (amended): with `LeftEar_IsGrabbed=True`, `LeftEar_Stretch=0.8` and
threshold `0.5`, the pull feature computes shock strength
`max(10, min(100, 20 + int((stretch - threshold) * 80))) = 44` and issues
exactly one shock request; a subsequent poll inside the cooldown window
issues none, even though the stretch parameter still reads `0.8`. -/
theorem pull_scenario_C3 (t0 t1 : ℚ) (h0 : 0 ≤ t0)
    (h1 : t1 < t0 + pullCooldownSeconds) :
    pull_run 0 [{ now := t0, store := pullDemoStore },
        { now := t1, store := pullDemoStore }]
      = (t0 + pullCooldownSeconds,
         [some { strength := 44, duration := 1/2 }, none]) := by
  have ht0 : pull_tick 0 t0 pullDemoStore
      = (t0 + pullCooldownSeconds, some { strength := 44, duration := 1/2 }) := by
    rw [pull_tick, if_pos h0, pull_demo_scan]
  have ht1 : pull_tick (t0 + pullCooldownSeconds) t1 pullDemoStore
      = (t0 + pullCooldownSeconds, none) := by
    rw [pull_tick, if_neg (not_le.mpr h1)]
  simp only [pull_run, ht0, ht1]

theorem pull_scenario_C3_witness :
    pull_run 0 [{ now := 0, store := pullDemoStore },
        { now := 1, store := pullDemoStore }]
      = (0 + pullCooldownSeconds,
         [some { strength := 44, duration := 1/2 }, none]) :=
  pull_scenario_C3 0 1 (le_refl 0) (by norm_num [pullCooldownSeconds])

/-! ## C8 — fail-open worker loops -/

/-- C8 counterexample: an error raised by the Parameter Store while the pull
tick reads `LeftEar_IsGrabbed` is NOT caught at the call site — the tick body
evaluates to that error, i.e. the exception escapes `_worker_loop` and
terminates the worker thread, contradicting the claim that any error calling
into the Parameter Store is caught and swallowed so the loop always proceeds. -/
theorem failopen_C8_counterexample :
    pull_tickE 0 0 errParamOracle okShockOracle
      = .error (.runtimeError ("osc failure")) := by
  rw [pull_tickE, if_pos (le_refl 0)]
  rfl

/-- C8 (amended): in the pull loop, actuator errors are swallowed inside
`_deliver_correction`'s `try/except` at the call site, so for ANY actuator
behaviour (including one that always raises) the tick body completes normally
and computes the same cooldown state as the pure model; Parameter Store reads,
by contrast, are unguarded (see the counterexample). -/
theorem failopen_C8 (store : ParamStore) (pishock : ShockOracle)
    (cooldownUntil now : ℚ) :
    pull_tickE cooldownUntil now (fun name => .ok (store name)) pishock
      = .ok ((pull_tick cooldownUntil now store).1) := by
  have hscan : ∀ targets : List String,
      pull_check_and_maybe_shockE (fun name => .ok (store name)) pishock targets
        = .ok ((pull_scan targets store).isSome) := by
    intro targets
    induction targets with
    | nil => rfl
    | cons base rest ih =>
      show (if pull_get_bool_param store (base ++ "_IsGrabbed")
            ∧ pullStretchThreshold ≤ pull_get_float_param store (base ++ "_Stretch")
          then Except.ok true
          else pull_check_and_maybe_shockE (fun name => .ok (store name)) pishock rest)
        = .ok ((pull_scan (base :: rest) store).isSome)
      by_cases h : pull_get_bool_param store (base ++ "_IsGrabbed")
          ∧ pullStretchThreshold ≤ pull_get_float_param store (base ++ "_Stretch")
      · rw [if_pos h]
        simp only [pull_scan]
        rw [if_pos h]
        rfl
      · rw [if_neg h]
        simp only [pull_scan]
        rw [if_neg h]
        exact ih
  by_cases hc : cooldownUntil ≤ now
  · rw [pull_tickE, if_pos hc, hscan pullTargets]
    obtain hs | ⟨r, hs⟩ := (pull_scan pullTargets store).eq_none_or_eq_some
    · rw [hs, pull_tick, if_pos hc, hs]
      rfl
    · rw [hs, pull_tick, if_pos hc, hs]
      rfl
  · rw [pull_tickE, if_neg hc, pull_tick, if_neg hc]

/-! ## Forbidden-words lemmas -/

theorem forbidden_cooldown_nonneg (config : Config) :
    0 ≤ forbidden_cooldown_seconds config := le_max_left 0 _

theorem forbidden_demo_cooldown :
    forbidden_cooldown_seconds forbiddenDemoConfig = 3 := by
  have h1 : forbiddenDemoConfig ("cooldown_scale") = none := rfl
  rw [forbidden_cooldown_seconds]
  show max 0 (forbiddenBaseCooldown * safe_scale forbiddenDemoConfig ("cooldown_scale")) = 3
  rw [safe_scale, h1]
  norm_num [forbiddenBaseCooldown, pyFloatOf, clamp02]

theorem forbidden_demo_shock_params :
    forbidden_shock_params forbiddenDemoConfig = { strength := 30, duration := 1/2 } := by
  have h1 : forbiddenDemoConfig ("strength_scale") = none := rfl
  have h2 : forbiddenDemoConfig ("duration_scale") = none := rfl
  have hstr : (forbidden_shock_params forbiddenDemoConfig).strength = 30 := by
    show pyTrunc (max 0 (forbiddenBaseStrength
        * safe_scale forbiddenDemoConfig ("strength_scale"))) = 30
    rw [safe_scale, h1]
    rw [show clamp02 ((pyFloatOf ((none : Option Value).getD (.vfloat 1))).getD 1) = 1 from by
      norm_num [pyFloatOf, clamp02]]
    rw [show max (0 : ℚ) (forbiddenBaseStrength * 1) = 30 from by
      norm_num [forbiddenBaseStrength]]
    norm_num [pyTrunc]
  have hdur : (forbidden_shock_params forbiddenDemoConfig).duration = 1/2 := by
    show max 0 (forbiddenBaseDuration
        * safe_scale forbiddenDemoConfig ("duration_scale")) = 1/2
    rw [safe_scale, h2]
    rw [show clamp02 ((pyFloatOf ((none : Option Value).getD (.vfloat 1))).getD 1) = 1 from by
      norm_num [pyFloatOf, clamp02]]
    norm_num [forbiddenBaseDuration]
  calc forbidden_shock_params forbiddenDemoConfig
      = { strength := (forbidden_shock_params forbiddenDemoConfig).strength, duration := (forbidden_shock_params forbiddenDemoConfig).duration } := rfl
    _ = { strength := 30, duration := 1/2 } := by rw [hstr, hdur]

/-- Any shock output of a scan is attributed to one of the scanned trainers. -/
theorem forbidden_scan_out_mem (now : ℚ) (ntext : String)
    (configs : List (String × Config)) (st : FStates) (T : String)
    (req : ShockRequest)
    (h : (T, req) ∈ (forbidden_scan now ntext configs st).2) :
    T ∈ configs.map Prod.fst := by
  induction configs generalizing st with
  | nil => exact absurd h (List.not_mem_nil _)
  | cons hd rest ih =>
    obtain ⟨tid, cfg⟩ := hd
    simp only [forbidden_scan] at h
    rw [List.map_cons]
    split at h
    · exact List.mem_cons_of_mem _ (ih st h)
    · split at h
      · exact List.mem_cons_of_mem _ (ih st h)
      · split at h
        · simp only [List.mem_singleton] at h
          rw [Prod.mk.injEq] at h
          rw [h.1]
          exact List.mem_cons_self _ _
        · exact List.mem_cons_of_mem _ (ih st h)

/-- A scan preserves lower bounds on every trainer's cooldown state. -/
theorem forbidden_scan_lb (now : ℚ) (ntext : String)
    (configs : List (String × Config)) (st : FStates) (T : String) (B : ℚ)
    (h : B ≤ st T) : B ≤ (forbidden_scan now ntext configs st).1 T := by
  induction configs generalizing st with
  | nil => exact h
  | cons hd rest ih =>
    obtain ⟨tid, cfg⟩ := hd
    simp only [forbidden_scan]
    split
    · exact ih st h
    · split
      · exact ih st h
      · split
        · rename_i hphr hcool hcont
          show B ≤ if T = tid then now + forbidden_cooldown_seconds cfg else st T
          by_cases hT : T = tid
          · rw [if_pos hT]
            subst hT
            calc B ≤ st T := h
              _ ≤ now := le_of_not_lt hcool
              _ ≤ now + forbidden_cooldown_seconds cfg :=
                le_add_of_nonneg_right (forbidden_cooldown_nonneg cfg)
          · rw [if_neg hT]
            exact h
        · exact ih st h

/-- A trainer still inside the cooldown window cannot be shocked by a scan. -/
theorem forbidden_scan_nofire (now : ℚ) (ntext : String)
    (configs : List (String × Config)) (st : FStates) (T : String)
    (hc : now < st T) (req : ShockRequest) :
    (T, req) ∉ (forbidden_scan now ntext configs st).2 := by
  induction configs with
  | nil => exact List.not_mem_nil _
  | cons hd rest ih =>
    obtain ⟨tid, cfg⟩ := hd
    simp only [forbidden_scan]
    split
    · exact ih
    · split
      · exact ih
      · split
        · rename_i hphr hcool hcont
          intro hmem
          simp only [List.mem_singleton] at hmem
          rw [Prod.mk.injEq] at hmem
          rw [hmem.1] at hc
          exact hcool hc
        · exact ih

/-- A scan that shocks trainer `T` sets `T`'s cooldown to `now` plus the
cooldown resolved from `T`'s config at this tick. -/
theorem forbidden_scan_fire (now : ℚ) (ntext : String)
    (configs : List (String × Config)) (st : FStates) (T : String)
    (cfg : Config) (req : ShockRequest)
    (hnodup : (configs.map Prod.fst).Nodup) (hmem : (T, cfg) ∈ configs)
    (h : (T, req) ∈ (forbidden_scan now ntext configs st).2) :
    (forbidden_scan now ntext configs st).1 T
      = now + forbidden_cooldown_seconds cfg := by
  induction configs generalizing st with
  | nil => exact absurd hmem (List.not_mem_nil _)
  | cons hd rest ih =>
    obtain ⟨tid, c⟩ := hd
    rw [List.map_cons, List.nodup_cons] at hnodup
    simp only [forbidden_scan] at h ⊢
    by_cases h1 : (normalise_phrases (forbidden_word_list c)).isEmpty = true
    · rw [if_pos h1] at h ⊢
      rcases List.mem_cons.mp hmem with heq | hmem'
      · have hT : T = tid := congrArg Prod.fst heq
        have hmr := forbidden_scan_out_mem now ntext rest st T req h
        rw [hT] at hmr
        exact absurd hmr hnodup.1
      · exact ih st hnodup.2 hmem' h
    · rw [if_neg h1] at h ⊢
      by_cases h2 : now < st tid
      · rw [if_pos h2] at h ⊢
        rcases List.mem_cons.mp hmem with heq | hmem'
        · have hT : T = tid := congrArg Prod.fst heq
          have hmr := forbidden_scan_out_mem now ntext rest st T req h
          rw [hT] at hmr
          exact absurd hmr hnodup.1
        · exact ih st hnodup.2 hmem' h
      · rw [if_neg h2] at h ⊢
        by_cases h3 : contains_forbidden ntext (normalise_phrases (forbidden_word_list c))
            = true
        · rw [if_pos h3] at h ⊢
          simp only [List.mem_singleton] at h
          rw [Prod.mk.injEq] at h
          show (if T = tid then now + forbidden_cooldown_seconds c else st T)
            = now + forbidden_cooldown_seconds cfg
          rw [if_pos h.1]
          rcases List.mem_cons.mp hmem with heq | hmem'
          · have hc : c = cfg := (congrArg Prod.snd heq).symm
            rw [hc]
          · have hmr := List.mem_map_of_mem Prod.fst hmem'
            rw [h.1] at hmr
            exact absurd hmr hnodup.1
        · rw [if_neg h3] at h ⊢
          rcases List.mem_cons.mp hmem with heq | hmem'
          · have hT : T = tid := congrArg Prod.fst heq
            have hmr := forbidden_scan_out_mem now ntext rest st T req h
            rw [hT] at hmr
            exact absurd hmr hnodup.1
          · exact ih st hnodup.2 hmem' h

/-- Pruning keeps the state of an active trainer. -/
theorem forbidden_prune_active (st : FStates) (ids : List String) (T : String)
    (h : T ∈ ids) : forbidden_prune st ids T = st T := by
  show (if T ∈ ids then st T else 0) = st T
  rw [if_pos h]

/-- A tick that shocks trainer `T` sets `T`'s cooldown to the tick time plus
the cooldown resolved from `T`'s config. -/
theorem forbidden_tick_fire (st : FStates) (t : FTick) (T : String)
    (cfg : Config) (req : ShockRequest)
    (hnodup : (t.configs.map Prod.fst).Nodup) (hmem : (T, cfg) ∈ t.configs)
    (h : (T, req) ∈ (forbidden_tick st t).2) :
    (forbidden_tick st t).1 T = t.now + forbidden_cooldown_seconds cfg := by
  simp only [forbidden_tick] at h ⊢
  by_cases h1 : t.configs.isEmpty = true
  · rw [if_pos h1] at h
    exact absurd h (List.not_mem_nil _)
  · rw [if_neg h1] at h ⊢
    by_cases h2 : normalise_text t.text = ""
    · rw [if_pos h2] at h
      exact absurd h (List.not_mem_nil _)
    · rw [if_neg h2] at h ⊢
      exact forbidden_scan_fire _ _ _ _ T cfg req hnodup hmem h

/-- A tick preserves lower bounds on the state of an active trainer. -/
theorem forbidden_tick_lb (st : FStates) (t : FTick) (T : String) (B : ℚ)
    (hactive : T ∈ t.configs.map Prod.fst) (h : B ≤ st T) :
    B ≤ (forbidden_tick st t).1 T := by
  have hst1 : forbidden_prune st (t.configs.map Prod.fst) T = st T :=
    forbidden_prune_active st _ T hactive
  simp only [forbidden_tick]
  by_cases h1 : t.configs.isEmpty = true
  · rw [if_pos h1]
    show B ≤ forbidden_prune st (t.configs.map Prod.fst) T
    rw [hst1]
    exact h
  · rw [if_neg h1]
    by_cases h2 : normalise_text t.text = ""
    · rw [if_pos h2]
      show B ≤ forbidden_prune st (t.configs.map Prod.fst) T
      rw [hst1]
      exact h
    · rw [if_neg h2]
      exact forbidden_scan_lb _ _ _ _ T B (by rw [hst1]; exact h)

/-- An active trainer still inside the cooldown window is not shocked by a
tick. -/
theorem forbidden_tick_nofire (st : FStates) (t : FTick) (T : String)
    (hactive : T ∈ t.configs.map Prod.fst) (hc : t.now < st T)
    (req : ShockRequest) : (T, req) ∉ (forbidden_tick st t).2 := by
  have hst1 : forbidden_prune st (t.configs.map Prod.fst) T = st T :=
    forbidden_prune_active st _ T hactive
  simp only [forbidden_tick]
  by_cases h1 : t.configs.isEmpty = true
  · rw [if_pos h1]
    exact List.not_mem_nil _
  · rw [if_neg h1]
    by_cases h2 : normalise_text t.text = ""
    · rw [if_pos h2]
      exact List.not_mem_nil _
    · rw [if_neg h2]
      exact forbidden_scan_nofire _ _ _ _ T (by rw [hst1]; exact hc) req

/-- Splitting a forbidden-words run across an append. -/
theorem forbidden_run_state_append (st : FStates) (l1 l2 : List FTick) :
    (forbidden_run st (l1 ++ l2)).1
      = (forbidden_run (forbidden_run st l1).1 l2).1 := by
  induction l1 generalizing st with
  | nil => rfl
  | cons t ts ih => exact ih _

/-- Lower bounds on a continuously active trainer's cooldown survive a run. -/
theorem forbidden_run_lb (st : FStates) (ts : List FTick) (T : String) (B : ℚ)
    (hactive : ∀ t ∈ ts, T ∈ t.configs.map Prod.fst) (h : B ≤ st T) :
    B ≤ (forbidden_run st ts).1 T := by
  induction ts generalizing st with
  | nil => exact h
  | cons t ts ih =>
    exact ih _ (fun u hu => hactive u (List.mem_cons_of_mem _ hu))
      (forbidden_tick_lb st t T B (hactive t (List.mem_cons_self _ _)) h)

/-- Concrete evaluation: in the C7 scenario tick, trainer A (first, with a
matching phrase, off cooldown) is shocked. -/
theorem forbidden_demo_tick_out :
    (forbidden_tick (fun _ => 0) demoTickA).2
      = [("A", forbidden_shock_params forbiddenDemoConfig)] := rfl

theorem forbidden_demo_tick_stA :
    (forbidden_tick (fun _ => 0) demoTickA).1 ("A")
      = 5 + forbidden_cooldown_seconds forbiddenDemoConfig := rfl

theorem forbidden_demo_tick_stB :
    (forbidden_tick (fun _ => 0) demoTickA).1 ("B") = 0 := rfl

/-- Concrete evaluation: with A cooling down, the scan skips A and shocks B. -/
theorem forbidden_demo_tickAB_out :
    (forbidden_tick stACool demoTickAB).2
      = [("B", forbidden_shock_params forbiddenDemoConfig)] := rfl

/-- At most one shock is sent per scan. -/
theorem forbidden_scan_len (now : ℚ) (ntext : String)
    (configs : List (String × Config)) (st : FStates) :
    (forbidden_scan now ntext configs st).2.length ≤ 1 := by
  induction configs with
  | nil => norm_num [forbidden_scan]
  | cons hd rest ih =>
    obtain ⟨tid, cfg⟩ := hd
    simp only [forbidden_scan]
    split
    · exact ih
    · split
      · exact ih
      · split
        · norm_num
        · exact ih

/-- At most one shock is sent per tick. -/
theorem forbidden_tick_len (st : FStates) (t : FTick) :
    (forbidden_tick st t).2.length ≤ 1 := by
  simp only [forbidden_tick]
  split
  · norm_num
  · split
    · norm_num
    · exact forbidden_scan_len _ _ _ _

/-! ## C7 — forbidden-words attribution -/

/-- C7 counterexample: at time 5 trainer A (first in order, phrase list
`["bad word"]` matching the text) is still cooling down (`cooldown_until =
10`), so the shock of that tick is attributed to trainer B — the first
trainer whose phrase list matches does NOT win the tick; eligibility
(off-cooldown) also matters. -/
theorem forbidden_attribution_C7_counterexample :
    (forbidden_tick stACool demoTickAB).2
      = [("B", { strength := 30, duration := 1/2 })] ∧
    contains_forbidden (normalise_text ("this is a bad word"))
      (normalise_phrases (forbidden_word_list forbiddenDemoConfig)) = true ∧
    (5 : ℚ) < stACool ("A") := by
  refine ⟨?_, by decide, ?_⟩
  · rw [forbidden_demo_tickAB_out, forbidden_demo_shock_params]
  · show (5 : ℚ) < 10
    norm_num

/-- C7 (amended): in the scenario, with fresh states, trainer A's list
`["bad word"]` and trainer B's empty list, the tick's single shock is
attributed to A only — A's cooldown is set to `now + resolved cooldown` and
B's state is untouched; in general a tick sends at most one shock, and the
first trainer in iteration order with a non-empty normalised phrase list,
off cooldown, and a phrase match wins the tick (trainers before it that are
list-empty, cooling down, or non-matching are skipped), with no further
trainer evaluated. -/
theorem forbidden_attribution_C7 :
    ((forbidden_tick (fun _ => 0) demoTickA).2
        = [("A", { strength := 30, duration := 1/2 })] ∧
      (forbidden_tick (fun _ => 0) demoTickA).1 ("A")
        = 5 + forbidden_cooldown_seconds forbiddenDemoConfig ∧
      (forbidden_tick (fun _ => 0) demoTickA).1 ("B") = 0) ∧
    (∀ (st : FStates) (t : FTick), (forbidden_tick st t).2.length ≤ 1) ∧
    (∀ (now : ℚ) (ntext : String) (pre post : List (String × Config))
        (T : String) (cfg : Config) (st : FStates),
      (∀ p ∈ pre,
        (normalise_phrases (forbidden_word_list p.2)).isEmpty = true
        ∨ now < st p.1
        ∨ contains_forbidden ntext (normalise_phrases (forbidden_word_list p.2))
            = false) →
      (normalise_phrases (forbidden_word_list cfg)).isEmpty = false →
      st T ≤ now →
      contains_forbidden ntext (normalise_phrases (forbidden_word_list cfg))
        = true →
      forbidden_scan now ntext (pre ++ (T, cfg) :: post) st
        = (fstates_update st T (now + forbidden_cooldown_seconds cfg),
           [(T, forbidden_shock_params cfg)])) := by
  refine ⟨⟨?_, forbidden_demo_tick_stA, forbidden_demo_tick_stB⟩,
    forbidden_tick_len, ?_⟩
  · rw [forbidden_demo_tick_out, forbidden_demo_shock_params]
  · intro now ntext pre post T cfg st hpre hne hcool hcont
    induction pre with
    | nil =>
      simp only [List.nil_append, forbidden_scan]
      rw [if_neg (by rw [hne]; decide), if_neg (not_lt.mpr hcool), if_pos hcont]
    | cons p pre' ih =>
      obtain ⟨pid, pcfg⟩ := p
      have hp := hpre (pid, pcfg) (List.mem_cons_self _ _)
      have hpre' : ∀ q ∈ pre',
          (normalise_phrases (forbidden_word_list q.2)).isEmpty = true
          ∨ now < st q.1
          ∨ contains_forbidden ntext (normalise_phrases (forbidden_word_list q.2))
              = false :=
        fun q hq => hpre q (List.mem_cons_of_mem _ hq)
      simp only [List.cons_append, forbidden_scan]
      rcases hp with h1 | h1 | h1
      · rw [if_pos h1]
        exact ih hpre'
      · by_cases hie : (normalise_phrases (forbidden_word_list pcfg)).isEmpty = true
        · rw [if_pos hie]
          exact ih hpre'
        · rw [if_neg hie, if_pos h1]
          exact ih hpre'
      · by_cases hie : (normalise_phrases (forbidden_word_list pcfg)).isEmpty = true
        · rw [if_pos hie]
          exact ih hpre'
        · rw [if_neg hie]
          by_cases hcd : now < st pid
          · rw [if_pos hcd]
            exact ih hpre'
          · rw [if_neg hcd, if_neg (by rw [h1]; decide)]
            exact ih hpre'

theorem forbidden_attribution_C7_witness :
    forbidden_scan 5 (normalise_text ("this is a bad word"))
        ([("X", forbiddenEmptyConfig)] ++ ("A", forbiddenDemoConfig) :: [])
        (fun _ => 0)
      = (fstates_update (fun _ => 0) ("A")
          (5 + forbidden_cooldown_seconds forbiddenDemoConfig),
         [("A", forbidden_shock_params forbiddenDemoConfig)]) := by
  refine forbidden_attribution_C7.2.2 5 _ _ [] ("A") forbiddenDemoConfig _ ?_ ?_ ?_ ?_
  · intro p hp
    simp only [List.mem_singleton] at hp
    rw [hp]
    left
    decide
  · decide
  · norm_num
  · decide

/-! ## C1 — cooldown invariant -/

/-- C1: for the cited pull and forbidden-words features, once a feedback
action fires at time `t` with resolved cooldown `c`, no further feedback
fires before `t + c`, regardless of the inputs of the intervening polls (in
particular even when the trigger condition stays continuously true).  Pull:
after a tick fires, every later tick whose time is below `t +
_cooldown_seconds` outputs no shock.  Forbidden words: per (feature, trainer)
pair — if trainer `T` is shocked at a tick at time `t` under config `cfg`,
and `T` stays in the active set through the following ticks, then a later
tick at a time below `t + resolved cooldown of cfg` sends no shock to `T`. -/
theorem cooldown_invariant_C1 :
    (∀ (c0 : ℚ) (ts1 ts2 : List PullTick) (ti tj : PullTick)
        (req : ShockRequest),
      (pull_tick (pull_run c0 ts1).1 ti.now ti.store).2 = some req →
      tj.now < ti.now + pullCooldownSeconds →
      (pull_tick (pull_run c0 (ts1 ++ ti :: ts2)).1 tj.now tj.store).2 = none) ∧
    (∀ (st0 : FStates) (ts1 ts2 : List FTick) (ti tj : FTick)
        (T : String) (cfg : Config) (req : ShockRequest),
      (T, cfg) ∈ ti.configs →
      (ti.configs.map Prod.fst).Nodup →
      (T, req) ∈ (forbidden_tick (forbidden_run st0 ts1).1 ti).2 →
      (∀ t ∈ ts2, T ∈ t.configs.map Prod.fst) →
      T ∈ tj.configs.map Prod.fst →
      tj.now < ti.now + forbidden_cooldown_seconds cfg →
      ∀ req2,
        (T, req2) ∉ (forbidden_tick (forbidden_run st0 (ts1 ++ ti :: ts2)).1 tj).2) := by
  constructor
  · intro c0 ts1 ts2 ti tj req hfire htime
    have hf := pull_tick_fire (pull_run c0 ts1).1 ti.now ti.store req hfire
    have happ : (pull_run c0 (ts1 ++ ti :: ts2)).1
        = (pull_run (pull_tick (pull_run c0 ts1).1 ti.now ti.store).1 ts2).1 := by
      rw [show ts1 ++ ti :: ts2 = (ts1 ++ [ti]) ++ ts2 from by simp]
      rw [pull_run_state_append, pull_run_state_append]
      rfl
    have hlb : ti.now + pullCooldownSeconds ≤ (pull_run c0 (ts1 ++ ti :: ts2)).1 := by
      rw [happ]
      exact pull_run_lb _ _ ts2 (le_of_eq hf.1.symm)
    exact pull_tick_nofire _ tj.now tj.store (lt_of_lt_of_le htime hlb)
  · intro st0 ts1 ts2 ti tj T cfg req hmem hnodup hfire hactive2 hactivej htime req2
    have hf := forbidden_tick_fire (forbidden_run st0 ts1).1 ti T cfg req
      hnodup hmem hfire
    have happ : (forbidden_run st0 (ts1 ++ ti :: ts2)).1
        = (forbidden_run (forbidden_tick (forbidden_run st0 ts1).1 ti).1 ts2).1 := by
      rw [show ts1 ++ ti :: ts2 = (ts1 ++ [ti]) ++ ts2 from by simp]
      rw [forbidden_run_state_append, forbidden_run_state_append]
      rfl
    have hlb : ti.now + forbidden_cooldown_seconds cfg
        ≤ (forbidden_run st0 (ts1 ++ ti :: ts2)).1 T := by
      rw [happ]
      exact forbidden_run_lb _ ts2 T _ hactive2 (le_of_eq hf.symm)
    exact forbidden_tick_nofire _ tj T hactivej (lt_of_lt_of_le htime hlb) req2

theorem cooldown_invariant_C1_witness :
    (pull_tick (pull_run 0 ([] ++ { now := 0, store := pullDemoStore } :: [])).1
        1 pullDemoStore).2 = none ∧
    ("A", ({ strength := 30, duration := 1/2 } : ShockRequest))
      ∉ (forbidden_tick (forbidden_run (fun _ => 0) ([] ++ demoTickA :: [])).1
          demoTickA7).2 := by
  constructor
  · refine cooldown_invariant_C1.1 0 [] [] { now := 0, store := pullDemoStore }
      { now := 1, store := pullDemoStore } { strength := 44, duration := 1/2 } ?_ ?_
    · show (pull_tick 0 0 pullDemoStore).2 = some { strength := 44, duration := 1/2 }
      rw [pull_tick, if_pos (le_refl (0 : ℚ)), pull_demo_scan]
    · show (1 : ℚ) < 0 + pullCooldownSeconds
      norm_num [pullCooldownSeconds]
  · refine cooldown_invariant_C1.2 (fun _ => 0) [] [] demoTickA demoTickA7 ("A")
      forbiddenDemoConfig { strength := 30, duration := 1/2 }
      (List.mem_cons_self _ _) (by decide) ?_ ?_ (by decide) ?_
      { strength := 30, duration := 1/2 }
    · show ("A", ({ strength := 30, duration := 1/2 } : ShockRequest))
        ∈ (forbidden_tick (fun _ => 0) demoTickA).2
      rw [forbidden_demo_tick_out, forbidden_demo_shock_params]
      exact List.mem_singleton.mpr rfl
    · intro t ht
      exact absurd ht (List.not_mem_nil _)
    · show (7 : ℚ) < 5 + forbidden_cooldown_seconds forbiddenDemoConfig
      rw [forbidden_demo_cooldown]
      norm_num

/-! ## Tricks lemmas and C6 -/

/-- With no pending command and no queued events, a tricks tick is a no-op. -/
theorem tricks_tick_idle (s : TrainerTrickState) (t : TrickTick)
    (hp : s.pending = none) (hev : t.events = []) :
    tricks_tick s t = (s, []) := by
  have hc : ¬(s.pending.isNone ∧ !t.events.isEmpty) := fun h => by
    rw [hev] at h
    exact absurd h.2 (by decide)
  simp only [tricks_tick]
  rw [if_neg hc]
  simp only [hp]

/-- A pending command neither completed nor failable (deadline not yet
passed, or still cooling down) is held unchanged. -/
theorem tricks_tick_hold (s : TrainerTrickState) (t : TrickTick)
    (p : PendingCommand) (hp : s.pending = some p) (hev : t.events = [])
    (hcomp : tricks_is_command_completed t.store p.name = false)
    (hnt : ¬(p.deadline ≤ t.now ∧ s.cooldown_until ≤ t.now)) :
    tricks_tick s t = (s, []) := by
  have hc : ¬(s.pending.isNone ∧ !t.events.isEmpty) := fun h => by
    rw [hev] at h
    exact absurd h.2 (by decide)
  simp only [tricks_tick]
  rw [if_neg hc]
  simp only [hp]
  rw [if_neg (by rw [hcomp]; decide), if_neg hnt]

/-- A pending command past its deadline, with the trainer off cooldown and
the completion check false, fails: one failure shock, pending cleared,
cooldown set. -/
theorem tricks_tick_fails (s : TrainerTrickState) (t : TrickTick)
    (p : PendingCommand) (hp : s.pending = some p) (hev : t.events = [])
    (hcomp : tricks_is_command_completed t.store p.name = false)
    (hfc : p.deadline ≤ t.now ∧ s.cooldown_until ≤ t.now) :
    tricks_tick s t
      = ({ pending := none, cooldown_until := t.now + tricks_cooldown_seconds t.config },
         [TrickSignal.failureShock (tricks_shock_params t.config)]) := by
  have hc : ¬(s.pending.isNone ∧ !t.events.isEmpty) := fun h => by
    rw [hev] at h
    exact absurd h.2 (by decide)
  simp only [tricks_tick]
  rw [if_neg hc]
  simp only [hp]
  rw [if_neg (by rw [hcomp]; decide), if_pos hfc]
  simp

/-- Splitting a tricks run across an append. -/
theorem tricks_run_append (s : TrainerTrickState) (l1 l2 : List TrickTick) :
    tricks_run s (l1 ++ l2)
      = ((tricks_run (tricks_run s l1).1 l2).1,
         (tricks_run s l1).2 ++ (tricks_run (tricks_run s l1).1 l2).2) := by
  induction l1 generalizing s with
  | nil => rfl
  | cons t ts ih =>
    simp only [List.cons_append, tricks_run, List.append_eq, ih]

/-- A held pending command stays held over a run of hold ticks, emitting
nothing. -/
theorem tricks_run_hold (s : TrainerTrickState) (p : PendingCommand)
    (ts : List TrickTick) (hp : s.pending = some p)
    (hev : ∀ t ∈ ts, t.events = [])
    (hcomp : ∀ t ∈ ts, tricks_is_command_completed t.store p.name = false)
    (hnt : ∀ t ∈ ts, ¬(p.deadline ≤ t.now ∧ s.cooldown_until ≤ t.now)) :
    tricks_run s ts = (s, ts.map fun _ => []) := by
  induction ts with
  | nil => rfl
  | cons t ts ih =>
    have h1 := tricks_tick_hold s t p hp (hev t (List.mem_cons_self _ _))
      (hcomp t (List.mem_cons_self _ _)) (hnt t (List.mem_cons_self _ _))
    simp only [tricks_run, h1, List.map_cons]
    rw [ih (fun u hu => hev u (List.mem_cons_of_mem _ hu))
      (fun u hu => hcomp u (List.mem_cons_of_mem _ hu))
      (fun u hu => hnt u (List.mem_cons_of_mem _ hu))]

/-- An idle state stays idle over a run of event-free ticks, emitting
nothing. -/
theorem tricks_run_idle (s : TrainerTrickState) (ts : List TrickTick)
    (hp : s.pending = none) (hev : ∀ t ∈ ts, t.events = []) :
    tricks_run s ts = (s, ts.map fun _ => []) := by
  induction ts with
  | nil => rfl
  | cons t ts ih =>
    have h1 := tricks_tick_idle s t hp (hev t (List.mem_cons_self _ _))
    simp only [tricks_run, h1, List.map_cons]
    rw [ih (fun u hu => hev u (List.mem_cons_of_mem _ hu))]

/-- C6: a pending trick command whose required pose expression never holds at
any poll is failed at the first tick at or after its deadline with the
trainer off cooldown — exactly one failure shock is delivered, at or after
the deadline, the pending command is cleared (the state returns to idle, not
stuck pending), and the trainer's cooldown window is set to
`now + _cooldown_seconds(config)`; no further feedback follows while no new
command arrives. -/
theorem tricks_timeout_C6 (p : PendingCommand) (cd : ℚ)
    (ts1 ts2 : List TrickTick) (tf : TrickTick)
    (hev : ∀ t ∈ ts1 ++ tf :: ts2, t.events = [])
    (hcomp : ∀ t ∈ ts1, tricks_is_command_completed t.store p.name = false)
    (hcompf : tricks_is_command_completed tf.store p.name = false)
    (hpre : ∀ t ∈ ts1, ¬(p.deadline ≤ t.now ∧ cd ≤ t.now))
    (hfire : p.deadline ≤ tf.now ∧ cd ≤ tf.now) :
    tricks_run { pending := some p, cooldown_until := cd } (ts1 ++ tf :: ts2)
      = ({ pending := none
         , cooldown_until := tf.now + tricks_cooldown_seconds tf.config },
         ts1.map (fun _ => [])
           ++ [TrickSignal.failureShock (tricks_shock_params tf.config)]
             :: ts2.map (fun _ => [])) := by
  have hhold := tricks_run_hold { pending := some p, cooldown_until := cd } p ts1 rfl
    (fun t ht => hev t (List.mem_append_left _ ht)) hcomp hpre
  have hfail := tricks_tick_fails { pending := some p, cooldown_until := cd } tf p rfl
    (hev tf (List.mem_append_right _ (List.mem_cons_self _ _))) hcompf hfire
  have hidle := tricks_run_idle
    { pending := none
    , cooldown_until := tf.now + tricks_cooldown_seconds tf.config } ts2 rfl
    (fun t ht => hev t (List.mem_append_right _ (List.mem_cons_of_mem _ ht)))
  rw [tricks_run_append, hhold]
  simp only [tricks_run, hfail, hidle]

theorem tricks_timeout_C6_witness :
    tricks_run { pending := some { name := "sit", started_at := 0, deadline := 5 }
               , cooldown_until := 0 }
        ([demoTrickTick1] ++ demoTrickTickF :: [])
      = ({ pending := none
         , cooldown_until :=
             demoTrickTickF.now + tricks_cooldown_seconds demoTrickTickF.config },
         [demoTrickTick1].map (fun _ => [])
           ++ [TrickSignal.failureShock (tricks_shock_params demoTrickTickF.config)]
             :: ([] : List TrickTick).map (fun _ => [])) := by
  refine tricks_timeout_C6 { name := "sit", started_at := 0, deadline := 5 } 0
    [demoTrickTick1] [] demoTrickTickF ?_ ?_ ?_ ?_ ?_
  · intro t ht
    simp only [List.cons_append, List.nil_append, List.mem_cons,
      List.not_mem_nil, or_false] at ht
    rcases ht with rfl | rfl
    · rfl
    · rfl
  · intro t ht
    simp only [List.mem_singleton] at ht
    rw [ht]
    decide
  · decide
  · intro t ht
    simp only [List.mem_singleton] at ht
    rw [ht]
    show ¬((5 : ℚ) ≤ 1 ∧ (0 : ℚ) ≤ 1)
    norm_num
  · constructor
    · show (5 : ℚ) ≤ 6
      norm_num
    · show (0 : ℚ) ≤ 6
      norm_num

end VRTrainer
